import Mathlib

/-!
Verification development for the SSO launch-token pipeline of the
nao-nfinia-shell-web-app repository.

The definitions below are a shallow embedding of the TypeScript source:
  * src/lib/jwe.ts          — generateSignedAndEncryptedToken, constructLaunchUrl
  * src/app/api/token/generate/route.ts — POST handler (payload assembly, ordering)
  * src/lib/config.ts       — loadAndValidateConfig and its memoization cache
JavaScript truthiness, object-literal spread semantics, URLSearchParams
serialization and the jose library's compact JWS/JWE output shapes are
modelled explicitly.  Byte strings are List Nat (each entry a byte value),
strings are Lean String.
-/

namespace Spec2Proof

/-! ## JavaScript value semantics helpers -/

/-- Model of the JS expression s OR d for a string s: an empty string is
falsy, so it is replaced by the default d. -/
def jsStrOr (s d : String) : String :=
  if s = "" then d else s

/-- Model of the JS expression o OR d where o is an optional string field
(undefined and the empty string are both falsy). -/
def jsOrOpt (o : Option String) (d : String) : String :=
  match o with
  | none => d
  | some s => if s = "" then d else s

/-- Model of the JS expression o OR d where o is an optional number field
(undefined and 0 are both falsy). -/
def jsNatOr (o : Option Nat) (d : Nat) : Nat :=
  match o with
  | none => d
  | some n => if n = 0 then d else n

/-- JS truthiness of an optional string value: absent (undefined) and ""
are falsy, every other string is truthy. -/
def truthyOpt (o : Option String) : Bool :=
  match o with
  | none => false
  | some s => s != ""

/-! ## Character-list helpers used to mirror the string operations of
constructLaunchUrl (endsWith "/", slice(0,-1), startsWith "/") -/

/-- True when the first character of the list is a slash. -/
def headIsSlash : List Char → Bool
  | [] => false
  | c :: _ => c == '/'

/-- True when the list begins with two consecutive slashes. -/
def headTwoSlash : List Char → Bool
  | [] => false
  | [_] => false
  | c :: d :: _ => c == '/' && d == '/'

/-- True when the last character of the list is a slash. -/
def lastIsSlash : List Char → Bool
  | [] => false
  | [c] => c == '/'
  | _ :: c :: cs => lastIsSlash (c :: cs)

/-- Model of the JS test childDomain.endsWith("/"). -/
def jsEndsWithSlash (s : String) : Bool := lastIsSlash s.data

/-- Model of the JS test pathPart.startsWith("/"). -/
def jsStartsWithSlash (s : String) : Bool := headIsSlash s.data

/-- Model of the JS expression baseUrl.slice(0, -1): drop the last character. -/
def jsDropLastChar (s : String) : String := String.mk s.data.dropLast

/-! ## UTF-8 and application/x-www-form-urlencoded encoding
(the serialization performed by URLSearchParams.toString()) -/

/-- UTF-8 bytes of one character (byte values as Nat).  For every valid
code point v the quantity v / 262144 is below 64, so the mask on the first
byte of the four-byte form is the identity there. -/
def utf8Bytes (c : Char) : List Nat :=
  let v := c.toNat
  if v < 128 then [v]
  else if v < 2048 then [192 + v / 64, 128 + v % 64]
  else if v < 65536 then [224 + v / 4096, 128 + v / 64 % 64, 128 + v % 64]
  else [240 + v / 262144 % 64, 128 + v / 4096 % 64, 128 + v / 64 % 64, 128 + v % 64]

/-- UTF-8 bytes of a whole string (the plaintext preparation step
new TextEncoder().encode(...) of the source). -/
def utf8Enc (s : String) : List Nat :=
  s.data.foldr (fun c acc => utf8Bytes c ++ acc) []

/-- Uppercase hexadecimal digit. -/
def hexDigit (n : Nat) : Char :=
  "0123456789ABCDEF".data.getD n '0'

/-- Percent-encoding of a single byte, uppercase hex as URLSearchParams emits. -/
def percentByte (b : Nat) : List Char :=
  ['%', hexDigit (b / 16 % 16), hexDigit (b % 16)]

/-- Characters URLSearchParams leaves unescaped: ASCII alphanumerics and
the four characters * - . _ (application/x-www-form-urlencoded). -/
def formSafeChar (c : Char) : Bool :=
  c.isAlphanum || c == '*' || c == '-' || c == '.' || c == '_'

/-- Serialization of one character under x-www-form-urlencoded:
space becomes +, safe characters stay, the rest is percent-encoded UTF-8. -/
def formUrlEncodeChar (c : Char) : List Char :=
  if c = ' ' then ['+']
  else if formSafeChar c then [c]
  else (utf8Bytes c).foldr (fun b acc => percentByte b ++ acc) []

/-- Serialization of a string under x-www-form-urlencoded. -/
def formUrlEncode (s : String) : String :=
  String.mk (s.data.foldr (fun c acc => formUrlEncodeChar c ++ acc) [])

/-- Join of the key=value pieces with an ampersand, as URLSearchParams does. -/
def joinAmp : List String → String
  | [] => ""
  | [x] => x
  | x :: xs => x ++ "&" ++ joinAmp xs

/-- Model of URLSearchParams(entries).toString(): each pair becomes
encodedKey=encodedValue and the pieces are joined with ampersands,
preserving entry order. -/
def urlSearchParamsToString (ps : List (String × String)) : String :=
  joinAmp (ps.map (fun p => formUrlEncode p.1 ++ "=" ++ formUrlEncode p.2))

/-! ## JS object-literal semantics.
The source builds URLSearchParams from the object literal
with the computed token key first and the spread of additionalParams after
it; a spread entry whose key already exists replaces the value in place,
otherwise it is appended. -/

/-- Insert one key/value into an entry list with JS object semantics:
an existing key keeps its position and gets the new value, a new key is
appended at the end. -/
def jsObjectUpsert (ps : List (String × String)) (k v : String) : List (String × String) :=
  if ps.any (fun p => p.1 == k) then
    ps.map (fun p => if p.1 == k then (p.1, v) else p)
  else ps ++ [(k, v)]

/-- Entry list of the JS object literal that starts from base and spreads
extra over it, in order. -/
def jsObjectEntries (base : List (String × String)) (extra : List (String × String)) :
    List (String × String) :=
  extra.foldl (fun acc kv => jsObjectUpsert acc kv.1 kv.2) base

/-! ## Configuration data model (src/types/config.ts, validated shape) -/

/-- URL construction parameters of an environment (interface UrlConfig).
The source field pathPrefix is named pathPrefixField here. -/
structure UrlConfig where
  pathPrefixField : Option String
  tokenParam : Option String
  additionalParams : Option (List (String × String))
deriving Repr, DecidableEq

/-- Signature public key holder (interface SigKey). -/
structure SigKey where
  publicKey : String
deriving Repr, DecidableEq

/-- Encryption public key holder (interface EncKey). -/
structure EncKey where
  publicKey : String
deriving Repr, DecidableEq

/-- Nested key material (interface KeySet). -/
structure KeySet where
  sig : SigKey
  enc : EncKey
deriving Repr, DecidableEq

/-- Per-environment configuration (interface EnvironmentConfig).  The field
expiredTime is read by generateSignedAndEncryptedToken at run time although
it is not declared in the TypeScript interface, hence optional here;
sharedSecret is declared but unused by the embedded functions. -/
structure EnvironmentConfig where
  name : String
  childDomain : String
  clientId : String
  clientSecret : String
  sharedSecret : String
  keys : KeySet
  keyEncryptionAlgorithm : Option String
  contentEncryptionAlgorithm : Option String
  signAlgorithm : String
  tokenExpiration : Option Nat
  expiredTime : Option String
  urlConfig : Option UrlConfig
deriving Repr, DecidableEq

/-! ## constructLaunchUrl (src/lib/jwe.ts lines 296-338) -/

/-- Message thrown when the child domain is absent. -/
def childDomainMissingMsg : String :=
  "Child domain is missing in the environment configuration."

/-- cleanBaseUrl of constructLaunchUrl: baseUrl.endsWith("/") ?
baseUrl.slice(0, -1) : baseUrl. -/
def cleanBaseOf (config : EnvironmentConfig) : String :=
  if jsEndsWithSlash config.childDomain then jsDropLastChar config.childDomain
  else config.childDomain

/-- pathPrefix of constructLaunchUrl: config.urlConfig?.pathPrefix OR "". -/
def pathPreOf (config : EnvironmentConfig) : String :=
  jsOrOpt (config.urlConfig.bind (fun u => u.pathPrefixField)) ""

/-- tokenParam of constructLaunchUrl: config.urlConfig?.tokenParam OR "token". -/
def effTokenParam (config : EnvironmentConfig) : String :=
  jsOrOpt (config.urlConfig.bind (fun u => u.tokenParam)) "token"

/-- additionalParams of constructLaunchUrl: config.urlConfig?.additionalParams
OR the empty object. -/
def addParams (config : EnvironmentConfig) : List (String × String) :=
  (config.urlConfig.bind (fun u => u.additionalParams)).getD []

/-- pathPart of constructLaunchUrl: prepend a slash when the prefix is
nonempty and lacks one, then collapse a bare "/" to the empty segment. -/
def pathPartOf (config : EnvironmentConfig) : String :=
  let p := pathPreOf config
  let p1 := if p ≠ "" ∧ jsStartsWithSlash p = false then "/" ++ p else p
  if p1 = "/" then "" else p1

/-- Query entries of constructLaunchUrl: the object literal spreading
additionalParams over the computed token key. -/
def launchUrlParams (token : String) (config : EnvironmentConfig) :
    List (String × String) :=
  jsObjectEntries [(effTokenParam config, token)] (addParams config)

/-- constructLaunchUrl of src/lib/jwe.ts: throws when childDomain is
falsy, otherwise concatenates cleanBaseUrl, pathPart, "?" and the
URLSearchParams serialization of the query entries. -/
def constructLaunchUrl (token : String) (config : EnvironmentConfig) :
    Except String String :=
  if config.childDomain = "" then
    Except.error childDomainMissingMsg
  else
    Except.ok (cleanBaseOf config ++ pathPartOf config ++ "?" ++
      urlSearchParamsToString (launchUrlParams token config))

/-! ## base64url (the segment encoding of JWS/JWE compact serialization) -/

/-- The base64url alphabet (RFC 4648 section 5), no padding. -/
def b64Alphabet : List Char :=
  "ABCDEFGHIJKLMNOPQRSTUVWXYZabcdefghijklmnopqrstuvwxyz0123456789-_".data

/-- Character of one 6-bit group.  The mask keeps the lookup total; every
call site passes a value below 64, where the mask is the identity. -/
def b64Char (n : Nat) : Char :=
  b64Alphabet.getD (n % 64) 'A'

/-- Index of a character in a character list (0 when absent at the end). -/
def c2nAux : List Char → Char → Nat
  | [], _ => 0
  | a :: as, c => if a = c then 0 else c2nAux as c + 1

/-- Index of a character in the base64url alphabet. -/
def c2n (c : Char) : Nat := c2nAux b64Alphabet c

/-- base64url encoding of a byte list, unpadded, three bytes at a time. -/
def base64urlEncode : List Nat → List Char
  | [] => []
  | [b1] => [b64Char (b1 / 4), b64Char (b1 % 4 * 16)]
  | [b1, b2] => [b64Char (b1 / 4), b64Char (b1 % 4 * 16 + b2 / 16), b64Char (b2 % 16 * 4)]
  | b1 :: b2 :: b3 :: rest =>
      b64Char (b1 / 4) :: b64Char (b1 % 4 * 16 + b2 / 16) ::
      b64Char (b2 % 16 * 4 + b3 / 64) :: b64Char (b3 % 64) :: base64urlEncode rest

/-- base64url decoding, the left inverse of base64urlEncode on byte lists. -/
def base64urlDecode : List Char → List Nat
  | [c1, c2] => [c2n c1 * 4 + c2n c2 / 16]
  | [c1, c2, c3] => [c2n c1 * 4 + c2n c2 / 16, c2n c2 % 16 * 16 + c2n c3 / 4]
  | c1 :: c2 :: c3 :: c4 :: rest =>
      (c2n c1 * 4 + c2n c2 / 16) :: (c2n c2 % 16 * 16 + c2n c3 / 4) ::
      (c2n c3 % 4 * 64 + c2n c4) :: base64urlDecode rest
  | _ => []

/-- A byte list: every entry is below 256. -/
def ValidBytes (bs : List Nat) : Prop := ∀ b ∈ bs, b < 256

instance (bs : List Nat) : Decidable (ValidBytes bs) := by
  unfold ValidBytes; infer_instance

/-- Split a character list at every dot. -/
def dotSplit : List Char → List (List Char)
  | [] => [[]]
  | c :: cs =>
      if c = '.' then [] :: dotSplit cs
      else
        match dotSplit cs with
        | [] => [[c]]
        | s :: ss => (c :: s) :: ss

/-! ## Payload data model (src/types/payload.ts).  The session and
customer payloads are opaque structured data for the pipeline, so the
definitions are polymorphic in their types S and C. -/

/-- The request's user payload: identityKey may be absent at run time,
customer is carried through untouched. -/
structure UserPayloadModel (C : Type) where
  identityKey : Option String
  customer : Option C
deriving Repr, DecidableEq

/-- interface CombinedPayload: the claims object assembled by the route
handler before signing. -/
structure CombinedPayload (S C : Type) where
  session : S
  identityKey : String
  customer : Option C
  iat : Nat
  exp : Nat
deriving Repr, DecidableEq

/-- The claims carried inside the signed token after the jose setters
ran: setIssuedAt, setSubject, setIssuer, setExpirationTime, setNotBefore
and setJti overwrite or add their fields on top of the payload. -/
structure JwsClaims (S C : Type) where
  session : S
  identityKey : String
  customer : Option C
  iat : Nat
  sub : String
  iss : String
  exp : Nat
  nbf : Nat
  jti : String
deriving Repr, DecidableEq

/-- Numeric value of a decimal digit list. -/
def natOfDigits (ds : List Char) : Nat :=
  ds.foldl (fun a c => a * 10 + (c.toNat - 48)) 0

/-- Modelled from the jose library's time-span parser (secs): a decimal
count followed by a unit word yields seconds; the source only passes the
spans "15m" and "0s" plus the run-time config.expiredTime value.  An
unrecognized unit yields 0 here (jose would throw). -/
def spanSeconds (s : String) : Nat :=
  let ds := s.data.takeWhile Char.isDigit
  let n := natOfDigits ds
  let unit : String := String.mk ((s.data.drop ds.length).filter (fun c => c != ' '))
  if unit ∈ ["s", "sec", "secs", "second", "seconds"] then n
  else if unit ∈ ["m", "min", "mins", "minute", "minutes"] then n * 60
  else if unit ∈ ["h", "hr", "hrs", "hour", "hours"] then n * 3600
  else if unit ∈ ["d", "day", "days"] then n * 86400
  else 0

/-- Step 4 of the POST handler (route.ts lines 121-136): combine the
payloads, defaulting a missing or empty identityKey to "", with
iat = nowSeconds and exp = nowSeconds + (tokenExpiration OR 300). -/
def combinePayloads {S C : Type} (sessionPayload : S) (userPayload : UserPayloadModel C)
    (config : EnvironmentConfig) (nowSeconds : Nat) : CombinedPayload S C :=
  { session := sessionPayload
    identityKey := jsOrOpt userPayload.identityKey ""
    customer := userPayload.customer
    iat := nowSeconds
    exp := nowSeconds + jsNatOr config.tokenExpiration 300 }

/-- The claims inside the JWS produced by generateSignedAndEncryptedToken
(jwe.ts lines 207-220): the jose setters overwrite iat with the signing
time, exp with signNow + (config.expiredTime OR "15m"), nbf with
signNow + "0s", and set sub, iss and the fresh jti. -/
def signJwtClaims {S C : Type} (payload : CombinedPayload S C)
    (config : EnvironmentConfig) (signNow : Nat) (jti : String) : JwsClaims S C :=
  { session := payload.session
    identityKey := payload.identityKey
    customer := payload.customer
    iat := signNow
    sub := config.clientId
    iss := config.clientId
    exp := signNow + spanSeconds (jsOrOpt config.expiredTime "15m")
    nbf := signNow + spanSeconds "0s"
    jti := jti }

/-! ## generateSignedAndEncryptedToken (src/lib/jwe.ts lines 185-282).
The jose primitives (HMAC signing, SPKI key import, RSA key encapsulation
and AES-GCM content encryption) are external library code, modelled as a
bundle of abstract functions; per-call randomness (jti, content-encryption
key, initialization vector) is passed explicitly. -/

/-- Abstract jose primitives.  signJws produces the compact JWS string of
the claims under an algorithm and secret; importSPKI models
jose.importSPKI (error = thrown parse failure); encryptKey, encryptContent
and authTag produce the byte segments of the JWE from the public key PEM,
the fresh content-encryption key, the fresh initialization vector and the
plaintext. -/
structure JoseOps (S C : Type) where
  signJws : JwsClaims S C → String → String → String
  importSPKI : String → String → Except String Unit
  encryptKey : String → List Nat → List Nat
  encryptContent : List Nat → List Nat → List Nat → List Nat
  authTag : List Nat → List Nat → List Nat → List Nat

/-- Fresh values drawn during one pipeline call: the random UUID for jti
(crypto.randomUUID()) and the encryption randomness of CompactEncrypt. -/
structure CallRandomness where
  jti : String
  cek : List Nat
  iv : List Nat

/-- Observable stages of one generateSignedAndEncryptedToken call, in the
order they complete. -/
inductive PipelineEvent
  | jwsSigned
  | publicKeyImported
  | jweEncrypted
deriving Repr, DecidableEq

/-- Message of prepareSigningSecret's throw (jwe.ts lines 49-56). -/
def signingSecretMissingMsg : String :=
  "Shared secret for signing is missing in the environment configuration."

/-- Message of importEncryptionPublicKey's missing-key throw (jwe.ts lines 74-78). -/
def encKeyMissingMsg : String :=
  "Encryption public key is missing in the environment configuration (config.keys.enc.publicKey)."

/-- Message of importEncryptionPublicKey's failed-import rethrow (jwe.ts lines 94-96). -/
def importFailMsg (cause alg : String) : String :=
  "Failed to import encryption public key: " ++ cause ++
  ". Ensure it's a valid SPKI PEM format for algorithm " ++ alg ++ "."

/-- The outer catch of generateSignedAndEncryptedToken rethrows every
failure with this wrapper (jwe.ts lines 278-280). -/
def genFailMsg (cause : String) : String :=
  "Signed and encrypted token generation failed: " ++ cause

/-- JSON text of the JWE protected header set by CompactEncrypt
(jwe.ts lines 259-265): alg, enc and the clientId under apiKey. -/
def jweHeaderJson (keyAlg contentAlg clientId : String) : String :=
  "\x7b\"alg\":\"" ++ keyAlg ++ "\",\"enc\":\"" ++ contentAlg ++
  "\",\"apiKey\":\"" ++ clientId ++ "\"\x7d"

/-- Character list of the JWE compact serialization: the five base64url
segments joined by dots. -/
def jweSegments (h ek iv ct tag : List Nat) : List Char :=
  base64urlEncode h ++ '.' ::
    (base64urlEncode ek ++ '.' ::
      (base64urlEncode iv ++ '.' ::
        (base64urlEncode ct ++ '.' :: base64urlEncode tag)))

/-- The JWE compact serialization string. -/
def jweCompact (h ek iv ct tag : List Nat) : String :=
  String.mk (jweSegments h ek iv ct tag)

/-- generateSignedAndEncryptedToken: resolve the signing algorithm
(config.signAlgorithm OR "HS256"), require a nonempty clientSecret
(prepareSigningSecret), sign the claims, resolve the JWE algorithms,
require and import the encryption public key, then encrypt the UTF-8
bytes of the JWS into the five-segment JWE.  The returned event list
records which stages completed; thrown errors carry the source's
messages wrapped by the outer catch. -/
def generateSignedAndEncryptedToken {S C : Type} (ops : JoseOps S C)
    (rand : CallRandomness) (payload : CombinedPayload S C)
    (config : EnvironmentConfig) (signNow : Nat) :
    Except String String × List PipelineEvent :=
  let signingAlgorithm := jsStrOr config.signAlgorithm "HS256"
  if config.clientSecret = "" then
    (Except.error (genFailMsg signingSecretMissingMsg), [])
  else
    let claims := signJwtClaims payload config signNow rand.jti
    let jws := ops.signJws claims signingAlgorithm config.clientSecret
    let keyEncryptionAlgorithm := jsOrOpt config.keyEncryptionAlgorithm "RSA-OAEP-256"
    let contentEncryptionAlgorithm := jsOrOpt config.contentEncryptionAlgorithm "A256GCM"
    if config.keys.enc.publicKey = "" then
      (Except.error (genFailMsg encKeyMissingMsg), [PipelineEvent.jwsSigned])
    else
      match ops.importSPKI config.keys.enc.publicKey keyEncryptionAlgorithm with
      | Except.error cause =>
          (Except.error (genFailMsg (importFailMsg cause keyEncryptionAlgorithm)),
           [PipelineEvent.jwsSigned])
      | Except.ok _ =>
          let jwsBytes := utf8Enc jws
          (Except.ok (jweCompact
              (utf8Enc (jweHeaderJson keyEncryptionAlgorithm contentEncryptionAlgorithm config.clientId))
              (ops.encryptKey config.keys.enc.publicKey rand.cek)
              rand.iv
              (ops.encryptContent rand.cek rand.iv jwsBytes)
              (ops.authTag rand.cek rand.iv jwsBytes)),
           [PipelineEvent.jwsSigned, PipelineEvent.publicKeyImported, PipelineEvent.jweEncrypted])

/-! ## The POST handler around the pipeline (route.ts lines 41-220) -/

/-- Error responses of the POST handler relevant to the pipeline: a
failure inside generateSignedAndEncryptedToken is answered as
TOKEN_GENERATION_ERROR (status 500), while a throw of constructLaunchUrl
escapes to the outer catch and is answered as INTERNAL_SERVER_ERROR. -/
inductive RouteError
  | tokenGenerationError (details : String)
  | internalServerError (details : String)
deriving Repr, DecidableEq

/-- Steps 5-6 of the POST handler: generate the token, then construct the
launch URL from it.  URL construction runs only after token generation
succeeded; its throw reaches the outer catch. -/
def postTokenPhase {S C : Type} (ops : JoseOps S C) (rand : CallRandomness)
    (payload : CombinedPayload S C) (config : EnvironmentConfig) (signNow : Nat) :
    Except RouteError (String × String) × List PipelineEvent :=
  match generateSignedAndEncryptedToken ops rand payload config signNow with
  | (Except.error e, evs) => (Except.error (RouteError.tokenGenerationError e), evs)
  | (Except.ok tok, evs) =>
      match constructLaunchUrl tok config with
      | Except.error e => (Except.error (RouteError.internalServerError e), evs)
      | Except.ok url => (Except.ok (tok, url), evs)

/-- The parsed request body of POST /api/token/generate. -/
structure GenerateTokenRequestModel (S C : Type) where
  clientName : Option String
  environment : Option String
  sessionPayload : Option S
  userPayload : Option (UserPayloadModel C)

/-- The presence check of the POST handler (route.ts line 71):
!clientName || !environment || !sessionPayload || !userPayload.
Payload objects are truthy whenever present. -/
def hasMissingFields {S C : Type} (req : GenerateTokenRequestModel S C) : Bool :=
  !truthyOpt req.clientName || !truthyOpt req.environment ||
  req.sessionPayload.isNone || req.userPayload.isNone

/-! ## loadAndValidateConfig (src/lib/config.ts).  The environment
variable holds JSON, so the value JSON.parse returns is a loose structure
whose fields may each be absent; accessing a nested field of an absent
object throws a TypeError, which the function's try/catch converts into
its cached parse error. -/

/-- A parsed public-key holder whose publicKey field may be absent. -/
structure RawKey where
  publicKey : Option String
deriving Repr, DecidableEq

/-- A parsed keys object whose sig and enc members may be absent. -/
structure RawKeys where
  sig : Option RawKey
  enc : Option RawKey
deriving Repr, DecidableEq

/-- A parsed environment record: every required field may be absent. -/
structure RawEnv where
  name : Option String
  childDomain : Option String
  clientId : Option String
  clientSecret : Option String
  keys : Option RawKeys
deriving Repr, DecidableEq

/-- A parsed client record. -/
structure RawClient where
  name : Option String
  environments : List RawEnv
deriving Repr, DecidableEq

/-- The parsed root of CLIENT_CONFIGURATIONS. -/
structure RawRootConfig where
  clients : List RawClient
deriving Repr, DecidableEq

/-- The environment check of config.ts lines 79-87, as one JS &&-chain:
env.name && env.childDomain && env.clientId && env.clientSecret &&
env.keys.enc.publicKey && env.keys.sig.publicKey.  The chain
short-circuits on the first falsy value; reading enc or sig under an
absent keys object throws a TypeError (the error case). -/
def validateEnv (e : RawEnv) : Except String Bool :=
  if !truthyOpt e.name then Except.ok false
  else if !truthyOpt e.childDomain then Except.ok false
  else if !truthyOpt e.clientId then Except.ok false
  else if !truthyOpt e.clientSecret then Except.ok false
  else
    match e.keys with
    | none => Except.error "TypeError: Cannot read properties of undefined (reading 'enc')"
    | some ks =>
        match ks.enc with
        | none => Except.error "TypeError: Cannot read properties of undefined (reading 'publicKey')"
        | some en =>
            if !truthyOpt en.publicKey then Except.ok false
            else
              match ks.sig with
              | none => Except.error "TypeError: Cannot read properties of undefined (reading 'publicKey')"
              | some sg => Except.ok (truthyOpt sg.publicKey)

/-- client.environments.every(...) over validateEnv, propagating a thrown
TypeError. -/
def envsAllValid : List RawEnv → Except String Bool
  | [] => Except.ok true
  | e :: rest =>
      match validateEnv e with
      | Except.error t => Except.error t
      | Except.ok false => Except.ok false
      | Except.ok true => envsAllValid rest

/-- Message of the per-client environment throw (config.ts lines 89-92). -/
def invalidEnvMsg (clientName : String) : String :=
  "Invalid environment configuration in client \"" ++ clientName ++
  "\": Missing required fields (name, childDomain, apiKey, apiSecret, publicKey)."

/-- rootConfig.clients.forEach of config.ts lines 77-93: throw on the
first client whose environments fail the check. -/
def checkClients : List RawClient → Except String Unit
  | [] => Except.ok ()
  | c :: rest =>
      match envsAllValid c.environments with
      | Except.error t => Except.error t
      | Except.ok false => Except.error (invalidEnvMsg (jsOrOpt c.name ""))
      | Except.ok true => checkClients rest

/-- Message of the client-shape throw (config.ts lines 72-74). -/
def invalidClientMsg : String :=
  "Invalid client configuration: Missing name or environments array."

/-- The validation body of loadAndValidateConfig after JSON.parse
(config.ts lines 66-97): the per-client name check, then the per-client
environment checks; returns the same record on success. -/
def validateConfig (cfg : RawRootConfig) : Except String RawRootConfig :=
  if !(cfg.clients.all (fun c => truthyOpt c.name)) then
    Except.error invalidClientMsg
  else
    match checkClients cfg.clients with
    | Except.error m => Except.error m
    | Except.ok _ => Except.ok cfg

/-- Message thrown when the environment variable is unset or empty
(config.ts lines 39-45). -/
def envMissingMsg : String :=
  "CLIENT_CONFIGURATIONS environment variable is not set."

/-- Wrapper of every failure inside the try block (config.ts lines 98-107). -/
def parseWrapMsg (cause : String) : String :=
  "Failed to parse or validate CLIENT_CONFIGURATIONS: " ++ cause

/-- The module-level memoization cells of config.ts lines 11-13. -/
structure ConfigCache where
  parsedConfig : Option RawRootConfig
  parseError : Option String
deriving Repr, DecidableEq

/-- loadAndValidateConfig as a state transition on the module cache.
envVar is the current value of the environment variable (none when
unset); parse models JSON.parse on it.  A cached config or cached error
is returned at once; otherwise the variable is read, parsed and
validated, and the outcome — success or wrapped failure — is stored
permanently in the cache. -/
def loadAndValidateConfig (envVar : Option String)
    (parse : String → Except String RawRootConfig) (st : ConfigCache) :
    Except String RawRootConfig × ConfigCache :=
  match st.parsedConfig with
  | some c => (Except.ok c, st)
  | none =>
    match st.parseError with
    | some e => (Except.error e, st)
    | none =>
      match envVar with
      | none => (Except.error envMissingMsg, ConfigCache.mk none (some envMissingMsg))
      | some s =>
        if s = "" then (Except.error envMissingMsg, ConfigCache.mk none (some envMissingMsg))
        else
          match parse s with
          | Except.error cause =>
              (Except.error (parseWrapMsg cause),
               ConfigCache.mk none (some (parseWrapMsg cause)))
          | Except.ok raw =>
              match validateConfig raw with
              | Except.error cause =>
                  (Except.error (parseWrapMsg cause),
                   ConfigCache.mk none (some (parseWrapMsg cause)))
              | Except.ok cfg => (Except.ok cfg, ConfigCache.mk (some cfg) none)

/-- True when the parsed environment record lacks a required field in the
sense of claim C8: clientSecret, the encryption public key, or
childDomain is absent or empty. -/
def missingRequiredField (e : RawEnv) : Bool :=
  !truthyOpt e.clientSecret ||
  (match e.keys with
   | none => true
   | some ks =>
       match ks.enc with
       | none => true
       | some en => !truthyOpt en.publicKey) ||
  !truthyOpt e.childDomain

/-! ## Concrete fixtures used by witnesses and counterexamples -/

/-- A configuration with every field populated and no optional overrides. -/
def cfgBase : EnvironmentConfig :=
  EnvironmentConfig.mk "dev" "https://dev.acme.com" "cid" "secret" "shared"
    (KeySet.mk (SigKey.mk "sigPem") (EncKey.mk "encPem")) none none "HS256"
    none none none

/-- The base configuration with an empty signing secret. -/
def cfgNoSecret : EnvironmentConfig :=
  EnvironmentConfig.mk "dev" "https://dev.acme.com" "cid" "" "shared"
    (KeySet.mk (SigKey.mk "sigPem") (EncKey.mk "encPem")) none none "HS256"
    none none none

/-- Abstract jose primitives instantiated with constants. -/
def opsX : JoseOps Nat Nat :=
  JoseOps.mk (fun _ _ _ => "h.p.s") (fun _ _ => Except.ok ())
    (fun _ _ => [9]) (fun _ _ _ => [8]) (fun _ _ _ => [7])

/-- A concrete per-call randomness value. -/
def randX : CallRandomness := CallRandomness.mk "jti-1" [1, 2] [3, 4]

/-- A concrete combined payload over Nat session and customer data. -/
def payloadX : CombinedPayload Nat Nat := CombinedPayload.mk 0 "" none 1000 1300

/-- A concrete user payload with no identityKey field. -/
def userX : UserPayloadModel Nat := UserPayloadModel.mk none none

/-! ## Claim C2 (corrected) -/

/-- Counterexample to claim C2: with tokenExpiration and expiredTime both
unset, the claims carried inside the generated signed token have
exp = iat + 900 (the signer's "15m" default), not iat + 300. -/
theorem c2_exp_counterexample :
    (signJwtClaims (combinePayloads (0 : Nat) userX cfgBase 1000) cfgBase 1000 "jti-1").exp ≠
      (signJwtClaims (combinePayloads (0 : Nat) userX cfgBase 1000) cfgBase 1000 "jti-1").iat + 300 := by
  decide

/-- Claim C2 (amended): when config.tokenExpiration is unset the combined
payload built by the route handler has exp = iat + 300, but the jose
setters overwrite both fields, so the claims inside the signed token have
exp = iat + 900 when config.expiredTime is unset (default span "15m"). -/
theorem c2_exp_amended {S C : Type} (s : S) (u : UserPayloadModel C)
    (config : EnvironmentConfig) (now signNow : Nat) (jti : String)
    (hte : config.tokenExpiration = none) (het : config.expiredTime = none) :
    (combinePayloads s u config now).exp = (combinePayloads s u config now).iat + 300 ∧
    (signJwtClaims (combinePayloads s u config now) config signNow jti).exp =
      (signJwtClaims (combinePayloads s u config now) config signNow jti).iat + 900 := by
  constructor
  · simp [combinePayloads, hte, jsNatOr]
  · simp [signJwtClaims, het, jsOrOpt]
    decide

/-- Witness for the amended C2 theorem at concrete inputs. -/
theorem c2_exp_amended_witness :
    (combinePayloads (0 : Nat) userX cfgBase 1000).exp =
      (combinePayloads (0 : Nat) userX cfgBase 1000).iat + 300 ∧
    (signJwtClaims (combinePayloads (0 : Nat) userX cfgBase 1000) cfgBase 1000 "jti-1").exp =
      (signJwtClaims (combinePayloads (0 : Nat) userX cfgBase 1000) cfgBase 1000 "jti-1").iat + 900 :=
  c2_exp_amended 0 userX cfgBase 1000 1000 "jti-1" rfl rfl

/-! ## Claim C3 (confirmed) -/

/-- Claim C3: with an empty clientSecret, generateSignedAndEncryptedToken
fails with the missing-signing-secret error wrapped by the pipeline, and
no stage runs: the event list is empty, so neither the public-key import
nor the JWE encryption was attempted. -/
theorem c3_missing_signing_secret {S C : Type} (ops : JoseOps S C)
    (rand : CallRandomness) (payload : CombinedPayload S C)
    (config : EnvironmentConfig) (signNow : Nat)
    (hsec : config.clientSecret = "") :
    generateSignedAndEncryptedToken ops rand payload config signNow =
      (Except.error (genFailMsg signingSecretMissingMsg), []) ∧
    PipelineEvent.publicKeyImported ∉
      (generateSignedAndEncryptedToken ops rand payload config signNow).2 ∧
    PipelineEvent.jweEncrypted ∉
      (generateSignedAndEncryptedToken ops rand payload config signNow).2 := by
  refine ⟨?_, ?_, ?_⟩ <;> simp [generateSignedAndEncryptedToken, hsec]

/-- Witness for the C3 theorem at concrete inputs. -/
theorem c3_missing_signing_secret_witness :
    generateSignedAndEncryptedToken opsX randX payloadX cfgNoSecret 1000 =
      (Except.error (genFailMsg signingSecretMissingMsg), []) ∧
    PipelineEvent.publicKeyImported ∉
      (generateSignedAndEncryptedToken opsX randX payloadX cfgNoSecret 1000).2 ∧
    PipelineEvent.jweEncrypted ∉
      (generateSignedAndEncryptedToken opsX randX payloadX cfgNoSecret 1000).2 :=
  c3_missing_signing_secret opsX randX payloadX cfgNoSecret 1000 rfl

/-! ## Claim C9 (confirmed) -/

/-- Claim C9: loadAndValidateConfig memoizes both outcomes permanently.
After any first call, a later call — with any environment-variable value
and any parse behaviour — returns exactly the first call's outcome and
leaves the cache unchanged: a cached success is returned without
re-reading the environment, and a cached failure is re-thrown even if the
variable has since been set or corrected. -/
theorem c9_loadAndValidateConfig_sticky (env1 env2 : Option String)
    (parse1 parse2 : String → Except String RawRootConfig) (st : ConfigCache) :
    loadAndValidateConfig env2 parse2 (loadAndValidateConfig env1 parse1 st).2 =
      loadAndValidateConfig env1 parse1 st := by
  rcases st with ⟨pc, pe⟩
  cases pc with
  | some c => rfl
  | none =>
    cases pe with
    | some e => rfl
    | none =>
      cases env1 with
      | none => rfl
      | some s =>
        by_cases hs : s = ""
        · simp [loadAndValidateConfig, hs]
        · cases hp : parse1 s with
          | error cause => simp [loadAndValidateConfig, hs, hp]
          | ok raw =>
            cases hv : validateConfig raw with
            | error cause => simp [loadAndValidateConfig, hs, hp, hv]
            | ok cfg => simp [loadAndValidateConfig, hs, hp, hv]

/-! ## Claim C10 (confirmed) -/

/-- Claim C10: when the request's userPayload is present but lacks the
identityKey field, the POST handler's presence check passes (no
MISSING_FIELDS error) and the combined claims payload silently carries
identityKey = "", proceeding to sign and encrypt. -/
theorem c10_identityKey_defaults_empty {S C : Type}
    (req : GenerateTokenRequestModel S C) (config : EnvironmentConfig)
    (now : Nat) (s : S) (u : UserPayloadModel C)
    (hcn : truthyOpt req.clientName = true) (henv : truthyOpt req.environment = true)
    (hs : req.sessionPayload = some s) (hu : req.userPayload = some u)
    (hik : u.identityKey = none) :
    hasMissingFields req = false ∧
    (combinePayloads s u config now).identityKey = "" := by
  constructor
  · simp [hasMissingFields, hcn, henv, hs, hu]
  · simp [combinePayloads, hik, jsOrOpt]

/-- Witness for the C10 theorem at concrete inputs. -/
theorem c10_identityKey_defaults_empty_witness :
    hasMissingFields (GenerateTokenRequestModel.mk (some "Acme") (some "dev")
      (some (0 : Nat)) (some userX)) = false ∧
    (combinePayloads (0 : Nat) userX cfgBase 1000).identityKey = "" :=
  c10_identityKey_defaults_empty
    (GenerateTokenRequestModel.mk (some "Acme") (some "dev") (some 0) (some userX))
    cfgBase 1000 0 userX rfl rfl rfl rfl rfl

/-! ## Helper lemmas about strings and the query-entry construction -/

/-- Appending strings appends their character data. -/
theorem strDataAppend (a b : String) : (a ++ b).data = a.data ++ b.data := by
  cases a; cases b; rfl

/-- A string with nonempty character data is not the empty string. -/
theorem strNeEmptyOfDataNeNil {s : String} (h : s.data ≠ []) : s ≠ "" := by
  intro he
  rw [he] at h
  exact h rfl

/-- Upserting a fresh key appends it at the end. -/
theorem jsObjectUpsert_append (ps : List (String × String)) (k v : String)
    (h : ∀ p ∈ ps, p.1 ≠ k) : jsObjectUpsert ps k v = ps ++ [(k, v)] := by
  unfold jsObjectUpsert
  have hany : ps.any (fun p => p.1 == k) = false := by
    simp only [List.any_eq_false]
    intro p hp
    simpa using h p hp
  simp [hany]

/-- Spreading entries whose keys are fresh for the base and pairwise
distinct is plain concatenation. -/
theorem jsObjectEntries_append (extra : List (String × String)) :
    ∀ base, (∀ p ∈ extra, ∀ q ∈ base, q.1 ≠ p.1) →
    (extra.map Prod.fst).Nodup →
    jsObjectEntries base extra = base ++ extra := by
  induction extra with
  | nil => intro base _ _; simp [jsObjectEntries]
  | cons kv rest ih =>
    intro base hb hnd
    have hk : ∀ p ∈ base, p.1 ≠ kv.1 := fun p hp => hb kv (by simp) p hp
    have hstep : jsObjectEntries base (kv :: rest) =
        jsObjectEntries (base ++ [kv]) rest := by
      show List.foldl (fun acc q => jsObjectUpsert acc q.1 q.2)
        (jsObjectUpsert base kv.1 kv.2) rest = _
      rw [jsObjectUpsert_append base kv.1 kv.2 hk]
      rfl
    have hnd' : (kv.1 :: rest.map Prod.fst).Nodup := hnd
    have hnotin : kv.1 ∉ rest.map Prod.fst := (List.nodup_cons.mp hnd').1
    rw [hstep, ih (base ++ [kv]) ?_ ?_]
    · simp
    · intro p hp q hq
      rcases List.mem_append.mp hq with hq | hq
      · exact hb p (by simp [hp]) q hq
      · have hqe : q = kv := by simpa using hq
        subst hqe
        intro hEq
        exact hnotin (hEq ▸ List.mem_map_of_mem Prod.fst hp)
    · exact (List.nodup_cons.mp hnd').2

/-- Upserting into a nonempty entry list keeps it nonempty. -/
theorem jsObjectUpsert_ne_nil (ps : List (String × String)) (k v : String)
    (h : ps ≠ []) : jsObjectUpsert ps k v ≠ [] := by
  unfold jsObjectUpsert
  split
  · intro hm
    exact h (List.map_eq_nil_iff.mp hm)
  · simp

/-- Spreading over a nonempty base yields a nonempty entry list. -/
theorem jsObjectEntries_ne_nil (extra : List (String × String)) :
    ∀ base, base ≠ [] → jsObjectEntries base extra ≠ [] := by
  induction extra with
  | nil => intro base h; simpa [jsObjectEntries] using h
  | cons kv rest ih =>
    intro base h
    exact ih (jsObjectUpsert base kv.1 kv.2) (jsObjectUpsert_ne_nil base kv.1 kv.2 h)

/-- The serialized form of one query pair has nonempty data (it contains
the equals sign). -/
theorem encodedPair_data_ne_nil (a b : String) :
    (formUrlEncode a ++ "=" ++ formUrlEncode b).data ≠ [] := by
  intro h
  have hl := congrArg List.length h
  rw [strDataAppend, strDataAppend] at hl
  simp at hl

/-- A nonempty entry list serializes to a nonempty query string. -/
theorem urlSearchParams_ne_empty (ps : List (String × String)) (h : ps ≠ []) :
    urlSearchParamsToString ps ≠ "" := by
  cases ps with
  | nil => exact absurd rfl h
  | cons p rest =>
    apply strNeEmptyOfDataNeNil
    cases rest with
    | nil =>
      show (formUrlEncode p.1 ++ "=" ++ formUrlEncode p.2).data ≠ []
      exact encodedPair_data_ne_nil p.1 p.2
    | cons q rest2 =>
      show ((formUrlEncode p.1 ++ "=" ++ formUrlEncode p.2) ++ "&" ++ _).data ≠ []
      rw [strDataAppend, strDataAppend]
      intro hx
      rcases List.append_eq_nil.mp hx with ⟨hx1, _⟩
      rcases List.append_eq_nil.mp hx1 with ⟨hx2, _⟩
      exact encodedPair_data_ne_nil p.1 p.2 hx2

/-! ## Claim C1 (corrected) -/

/-- A configuration whose additionalParams reuse the token parameter name. -/
def cfgC1 : EnvironmentConfig :=
  EnvironmentConfig.mk "dev" "https://x" "cid" "secret" "shared"
    (KeySet.mk (SigKey.mk "sigPem") (EncKey.mk "encPem")) none none "HS256"
    none none (some (UrlConfig.mk none none (some [("token", "override")])))

/-- Counterexample to claim C1: the object literal spreads additionalParams
after the token entry, so on a name collision the additional parameter's
value wins — the URL carries token=override and the encrypted token "TT"
does not appear at all. -/
theorem c1_collision_counterexample :
    constructLaunchUrl "TT" cfgC1 = Except.ok "https://x?token=override" ∧
    launchUrlParams "TT" cfgC1 = [("token", "override")] := by
  constructor
  · rfl
  · rfl

/-- Claim C1 (amended): when an additional parameter shares the token
parameter's name its value overrides the token; when no additional
parameter uses that name (and the additional parameter names are
pairwise distinct, as a JS record guarantees), the query entries are the
token entry followed by the additional parameters, and exactly one entry
carries the configured (or default "token") parameter name — with the
token as its value. -/
theorem c1_token_param_amended (token : String) (config : EnvironmentConfig)
    (hdom : config.childDomain ≠ "")
    (hnc : ∀ p ∈ addParams config, p.1 ≠ effTokenParam config)
    (hnd : ((addParams config).map Prod.fst).Nodup) :
    constructLaunchUrl token config =
      Except.ok (cleanBaseOf config ++ pathPartOf config ++ "?" ++
        urlSearchParamsToString ((effTokenParam config, token) :: addParams config)) ∧
    ((effTokenParam config, token) :: addParams config).filter
        (fun p => p.1 == effTokenParam config) = [(effTokenParam config, token)] := by
  have hparams : launchUrlParams token config =
      (effTokenParam config, token) :: addParams config := by
    unfold launchUrlParams
    rw [jsObjectEntries_append (addParams config) [(effTokenParam config, token)] ?_ hnd]
    · rfl
    · intro p hp q hq
      have hqe : q = (effTokenParam config, token) := by simpa using hq
      subst hqe
      exact fun hEq => hnc p hp hEq.symm
  constructor
  · unfold constructLaunchUrl
    rw [if_neg hdom, hparams]
  · rw [List.filter_cons]
    simp only [beq_self_eq_true, if_pos]
    congr 1
    rw [List.filter_eq_nil_iff]
    intro p hp
    simpa using hnc p hp

/-- A configuration with distinct additional parameters for the witness. -/
def cfgC1W : EnvironmentConfig :=
  EnvironmentConfig.mk "dev" "https://dev.acme.com" "cid" "secret" "shared"
    (KeySet.mk (SigKey.mk "sigPem") (EncKey.mk "encPem")) none none "HS256"
    none none (some (UrlConfig.mk (some "/sso/launch") (some "token")
      (some [("source", "parent-app")])))

/-- Witness for the amended C1 theorem at concrete inputs. -/
theorem c1_token_param_amended_witness :
    constructLaunchUrl "abc.def" cfgC1W =
      Except.ok (cleanBaseOf cfgC1W ++ pathPartOf cfgC1W ++ "?" ++
        urlSearchParamsToString ((effTokenParam cfgC1W, "abc.def") :: addParams cfgC1W)) ∧
    ((effTokenParam cfgC1W, "abc.def") :: addParams cfgC1W).filter
        (fun p => p.1 == effTokenParam cfgC1W) = [(effTokenParam cfgC1W, "abc.def")] :=
  c1_token_param_amended "abc.def" cfgC1W (by decide) (by decide) (by decide)

/-! ## Claim C5 (corrected) -/

/-- No double slash at the junction of base and path: either the path
segment is empty, or it starts with exactly one slash and the base does
not end with one. -/
def noJunctionDoubleSlash (base path : String) : Prop :=
  path = "" ∨ (headIsSlash path.data = true ∧ headTwoSlash path.data = false ∧
               lastIsSlash base.data = false)

/-- A string whose character data is empty is the empty string. -/
theorem strEqEmptyOfDataNil {s : String} (h : s.data = []) : s = "" := by
  cases s with
  | mk l => exact congrArg String.mk h

/-- Shape of the normalized path segment: empty, or one leading slash and
no second one, provided the configured path prefix does not itself start
with a double slash. -/
theorem pathPartOf_shape (config : EnvironmentConfig)
    (hp2 : headTwoSlash (pathPreOf config).data = false) :
    pathPartOf config = "" ∨
    (headIsSlash (pathPartOf config).data = true ∧
     headTwoSlash (pathPartOf config).data = false) := by
  by_cases h0 : pathPreOf config = ""
  · left
    simp [pathPartOf, h0]
  · cases h1 : jsStartsWithSlash (pathPreOf config) with
    | false =>
      right
      have hne : ("/" ++ pathPreOf config) ≠ "/" := by
        intro hh
        apply h0
        have hd := congrArg String.data hh
        rw [strDataAppend] at hd
        exact strEqEmptyOfDataNil (by simpa using hd)
      have hpath : pathPartOf config = "/" ++ pathPreOf config := by
        simp [pathPartOf, h0, h1, hne]
      have hdat : (pathPartOf config).data = '/' :: (pathPreOf config).data := by
        rw [hpath, strDataAppend]
        rfl
      rw [hdat]
      cases hdp : (pathPreOf config).data with
      | nil => exact ⟨rfl, rfl⟩
      | cons c cs =>
        refine ⟨rfl, ?_⟩
        have hc : (c == '/') = false := by
          have h1' := h1
          rw [jsStartsWithSlash, hdp] at h1'
          simpa [headIsSlash] using h1'
        simp [headTwoSlash, hc]
    | true =>
      by_cases hbare : pathPreOf config = "/"
      · left
        simp [pathPartOf, h1, hbare]
        decide
      · right
        have hpath : pathPartOf config = pathPreOf config := by
          simp [pathPartOf, h1, hbare]
        rw [hpath]
        refine ⟨?_, hp2⟩
        rw [jsStartsWithSlash] at h1
        exact h1

/-- Claim C5 (amended): constructLaunchUrl strips exactly one trailing
slash from childDomain when present; it prepends one slash to a nonempty
path prefix lacking one and collapses a bare "/" to the empty segment —
but a prefix already starting with "/" is kept verbatim, so only when the
prefix does not begin with "//" (and the stripped base does not end with
"/") is the junction free of double slashes.  The query string is never
empty, so no stray "?" ends the URL. -/
theorem c5_normalization_amended (config : EnvironmentConfig) (token : String)
    (hdom : config.childDomain ≠ "")
    (hclean : lastIsSlash (cleanBaseOf config).data = false)
    (hp2 : headTwoSlash (pathPreOf config).data = false) :
    (jsEndsWithSlash config.childDomain = true →
        (cleanBaseOf config).data = config.childDomain.data.dropLast) ∧
    (jsEndsWithSlash config.childDomain = false →
        cleanBaseOf config = config.childDomain) ∧
    (pathPreOf config = "/" → pathPartOf config = "") ∧
    noJunctionDoubleSlash (cleanBaseOf config) (pathPartOf config) ∧
    ∃ q, constructLaunchUrl token config =
        Except.ok (cleanBaseOf config ++ pathPartOf config ++ "?" ++ q) ∧ q ≠ "" := by
  refine ⟨?_, ?_, ?_, ?_, ?_⟩
  · intro h
    rw [cleanBaseOf, if_pos h]
    rfl
  · intro h
    rw [cleanBaseOf, if_neg ?_]
    rw [h]
    exact Bool.false_ne_true
  · intro h
    have hsl : jsStartsWithSlash (pathPreOf config) = true := by
      rw [h]
      rfl
    simp [pathPartOf, h, hsl]
    decide
  · rcases pathPartOf_shape config hp2 with h | ⟨h1, h2⟩
    · exact Or.inl h
    · exact Or.inr ⟨h1, h2, hclean⟩
  · refine ⟨urlSearchParamsToString (launchUrlParams token config), ?_, ?_⟩
    · unfold constructLaunchUrl
      rw [if_neg hdom]
    · apply urlSearchParams_ne_empty
      apply jsObjectEntries_ne_nil
      simp

/-- A configuration whose path prefix starts with a double slash. -/
def cfgC5 : EnvironmentConfig :=
  EnvironmentConfig.mk "dev" "https://x" "cid" "secret" "shared"
    (KeySet.mk (SigKey.mk "sigPem") (EncKey.mk "encPem")) none none "HS256"
    none none (some (UrlConfig.mk (some "//p") none none))

/-- Counterexample to claim C5: a path prefix "//p" already starts with a
slash, so the code keeps it verbatim; the resulting URL has a double
slash between domain and path, refuting "starts with exactly one leading
slash" for every urlPathPrefix. -/
theorem c5_double_slash_counterexample :
    constructLaunchUrl "T" cfgC5 = Except.ok "https://x//p?token=T" ∧
    headTwoSlash (pathPartOf cfgC5).data = true := by
  constructor
  · rfl
  · rfl

/-- A well-behaved configuration for the C5 witness: trailing slash on the
domain, conventional path prefix. -/
def cfgC5W : EnvironmentConfig :=
  EnvironmentConfig.mk "dev" "https://dev.acme.com/" "cid" "secret" "shared"
    (KeySet.mk (SigKey.mk "sigPem") (EncKey.mk "encPem")) none none "HS256"
    none none (some (UrlConfig.mk (some "sso/launch") none none))

/-- Witness for the amended C5 theorem at concrete inputs. -/
theorem c5_normalization_amended_witness :
    (jsEndsWithSlash cfgC5W.childDomain = true →
        (cleanBaseOf cfgC5W).data = cfgC5W.childDomain.data.dropLast) ∧
    (jsEndsWithSlash cfgC5W.childDomain = false →
        cleanBaseOf cfgC5W = cfgC5W.childDomain) ∧
    (pathPreOf cfgC5W = "/" → pathPartOf cfgC5W = "") ∧
    noJunctionDoubleSlash (cleanBaseOf cfgC5W) (pathPartOf cfgC5W) ∧
    ∃ q, constructLaunchUrl "tok" cfgC5W =
        Except.ok (cleanBaseOf cfgC5W ++ pathPartOf cfgC5W ++ "?" ++ q) ∧ q ≠ "" :=
  c5_normalization_amended cfgC5W "tok" (by decide) (by decide) (by decide)

/-! ## Claim C4 (confirmed) -/

/-- Successful run of generateSignedAndEncryptedToken: with a nonempty
secret, a nonempty encryption key and a succeeding import, the result is
the five-segment JWE and all three stages completed. -/
theorem genSigned_ok {S C : Type} (ops : JoseOps S C) (rand : CallRandomness)
    (payload : CombinedPayload S C) (config : EnvironmentConfig) (signNow : Nat)
    (hsec : config.clientSecret ≠ "") (hpk : config.keys.enc.publicKey ≠ "")
    (himp : ops.importSPKI config.keys.enc.publicKey
        (jsOrOpt config.keyEncryptionAlgorithm "RSA-OAEP-256") = Except.ok ()) :
    generateSignedAndEncryptedToken ops rand payload config signNow =
      (Except.ok (jweCompact
          (utf8Enc (jweHeaderJson (jsOrOpt config.keyEncryptionAlgorithm "RSA-OAEP-256")
            (jsOrOpt config.contentEncryptionAlgorithm "A256GCM") config.clientId))
          (ops.encryptKey config.keys.enc.publicKey rand.cek)
          rand.iv
          (ops.encryptContent rand.cek rand.iv (utf8Enc (ops.signJws
            (signJwtClaims payload config signNow rand.jti)
            (jsStrOr config.signAlgorithm "HS256") config.clientSecret)))
          (ops.authTag rand.cek rand.iv (utf8Enc (ops.signJws
            (signJwtClaims payload config signNow rand.jti)
            (jsStrOr config.signAlgorithm "HS256") config.clientSecret)))),
       [PipelineEvent.jwsSigned, PipelineEvent.publicKeyImported,
        PipelineEvent.jweEncrypted]) := by
  simp [generateSignedAndEncryptedToken, hsec, hpk, himp]

/-- Claim C4: with an empty childDomain the missing-child-domain error of
constructLaunchUrl is raised only after signing and encryption succeeded
(the event list shows all three crypto stages completed before the route
hits the URL error); with a nonempty childDomain, constructLaunchUrl
never raises. -/
theorem c4_child_domain_after_crypto {S C : Type} (ops : JoseOps S C)
    (rand : CallRandomness) (payload : CombinedPayload S C)
    (config : EnvironmentConfig) (signNow : Nat)
    (hsec : config.clientSecret ≠ "") (hpk : config.keys.enc.publicKey ≠ "")
    (himp : ops.importSPKI config.keys.enc.publicKey
        (jsOrOpt config.keyEncryptionAlgorithm "RSA-OAEP-256") = Except.ok ()) :
    (config.childDomain = "" →
      postTokenPhase ops rand payload config signNow =
        (Except.error (RouteError.internalServerError childDomainMissingMsg),
         [PipelineEvent.jwsSigned, PipelineEvent.publicKeyImported,
          PipelineEvent.jweEncrypted])) ∧
    ∀ (tok : String) (config2 : EnvironmentConfig), config2.childDomain ≠ "" →
      ∃ u, constructLaunchUrl tok config2 = Except.ok u := by
  constructor
  · intro hdom
    unfold postTokenPhase
    rw [genSigned_ok ops rand payload config signNow hsec hpk himp]
    simp [constructLaunchUrl, hdom]
  · intro tok config2 hdom2
    exact ⟨cleanBaseOf config2 ++ pathPartOf config2 ++ "?" ++
      urlSearchParamsToString (launchUrlParams tok config2),
      by simp [constructLaunchUrl, hdom2]⟩

/-- A configuration with an empty childDomain but complete crypto material. -/
def cfgNoDomain : EnvironmentConfig :=
  EnvironmentConfig.mk "dev" "" "cid" "secret" "shared"
    (KeySet.mk (SigKey.mk "sigPem") (EncKey.mk "encPem")) none none "HS256"
    none none none

/-- Witness for the C4 theorem at concrete inputs. -/
theorem c4_child_domain_after_crypto_witness :
    (cfgNoDomain.childDomain = "" →
      postTokenPhase opsX randX payloadX cfgNoDomain 1000 =
        (Except.error (RouteError.internalServerError childDomainMissingMsg),
         [PipelineEvent.jwsSigned, PipelineEvent.publicKeyImported,
          PipelineEvent.jweEncrypted])) ∧
    ∀ (tok : String) (config2 : EnvironmentConfig), config2.childDomain ≠ "" →
      ∃ u, constructLaunchUrl tok config2 = Except.ok u :=
  c4_child_domain_after_crypto opsX randX payloadX cfgNoDomain 1000
    (by decide) (by decide) rfl

/-! ## Claim C8 (confirmed) -/

/-- An environment record that passes the validation chain has all the
required fields of claim C8 present and nonempty. -/
theorem validateEnv_ok_true_fields (e : RawEnv)
    (h : validateEnv e = Except.ok true) : missingRequiredField e = false := by
  unfold validateEnv at h
  by_cases hn : (!truthyOpt e.name) = true
  · rw [if_pos hn] at h
    exact absurd h (by simp)
  · rw [if_neg hn] at h
    by_cases hcd : (!truthyOpt e.childDomain) = true
    · rw [if_pos hcd] at h
      exact absurd h (by simp)
    · rw [if_neg hcd] at h
      by_cases hci : (!truthyOpt e.clientId) = true
      · rw [if_pos hci] at h
        exact absurd h (by simp)
      · rw [if_neg hci] at h
        by_cases hcs : (!truthyOpt e.clientSecret) = true
        · rw [if_pos hcs] at h
          exact absurd h (by simp)
        · rw [if_neg hcs] at h
          cases hks : e.keys with
          | none =>
            rw [hks] at h
            exact absurd h (by simp)
          | some ks =>
            rw [hks] at h
            dsimp only at h
            cases hen : ks.enc with
            | none =>
              rw [hen] at h
              exact absurd h (by simp)
            | some en =>
              rw [hen] at h
              dsimp only at h
              by_cases hpk : (!truthyOpt en.publicKey) = true
              · rw [if_pos hpk] at h
                exact absurd h (by simp)
              · rw [Bool.not_eq_true] at hcs hcd hpk
                simp [missingRequiredField, hks, hen, hcs, hcd, hpk]

/-- every over validateEnv succeeding means every member passed. -/
theorem envsAllValid_mem (es : List RawEnv) (h : envsAllValid es = Except.ok true) :
    ∀ e ∈ es, validateEnv e = Except.ok true := by
  induction es with
  | nil => simp
  | cons e rest ih =>
    intro x hx
    unfold envsAllValid at h
    cases hv : validateEnv e with
    | error t => rw [hv] at h; exact absurd h (by simp)
    | ok b =>
      cases b with
      | false => rw [hv] at h; exact absurd h (by simp)
      | true =>
        rw [hv] at h
        rcases List.mem_cons.mp hx with hxe | hxr
        · rw [hxe]; exact hv
        · exact ih h x hxr

/-- The per-client forEach throws when some client holds an environment
with a missing required field. -/
theorem checkClients_err (cs : List RawClient)
    (h : ∃ c ∈ cs, ∃ e ∈ c.environments, missingRequiredField e = true) :
    ∃ msg, checkClients cs = Except.error msg := by
  induction cs with
  | nil =>
    rcases h with ⟨c, hc, _⟩
    exact absurd hc (by simp)
  | cons c rest ih =>
    unfold checkClients
    cases hv : envsAllValid c.environments with
    | error t => exact ⟨t, rfl⟩
    | ok b =>
      cases b with
      | false => exact ⟨invalidEnvMsg (jsOrOpt c.name ""), rfl⟩
      | true =>
        rcases h with ⟨c2, hc2, e, he, hbad⟩
        rcases List.mem_cons.mp hc2 with hceq | hcr
        · exfalso
          subst hceq
          have hok := envsAllValid_mem c2.environments hv e he
          rw [validateEnv_ok_true_fields e hok] at hbad
          exact absurd hbad (by simp)
        · exact ih ⟨c2, hcr, e, he, hbad⟩

/-- Claim C8: a parsed configuration holding any environment record with a
missing or empty clientSecret, encryption public key, or childDomain makes
validateConfig throw, and a fresh loadAndValidateConfig over such a parse
result throws too — such a record is never returned or defaulted. -/
theorem c8_missing_fields_fail_fast (raw : RawRootConfig)
    (h : ∃ c ∈ raw.clients, ∃ e ∈ c.environments, missingRequiredField e = true) :
    (∃ msg, validateConfig raw = Except.error msg) ∧
    ∀ (s : String) (parse : String → Except String RawRootConfig), s ≠ "" →
      parse s = Except.ok raw →
      ∃ msg, (loadAndValidateConfig (some s) parse (ConfigCache.mk none none)).1 =
        Except.error msg := by
  have hv : ∃ msg, validateConfig raw = Except.error msg := by
    unfold validateConfig
    by_cases hall : raw.clients.all (fun c => truthyOpt c.name) = true
    · rcases checkClients_err raw.clients h with ⟨m, hm⟩
      exact ⟨m, by simp [hall, hm]⟩
    · rw [Bool.not_eq_true] at hall
      exact ⟨invalidClientMsg, by simp [hall]⟩
  refine ⟨hv, ?_⟩
  intro s parse hs hp
  rcases hv with ⟨m, hm⟩
  exact ⟨parseWrapMsg m, by simp [loadAndValidateConfig, hs, hp, hm]⟩

/-- A parsed configuration whose only environment lacks clientSecret. -/
def rawBad : RawRootConfig :=
  RawRootConfig.mk [RawClient.mk (some "Acme")
    [RawEnv.mk (some "dev") (some "https://x") (some "cid") none
      (some (RawKeys.mk (some (RawKey.mk (some "sigPem")))
        (some (RawKey.mk (some "encPem")))))]]

/-- Witness for the C8 theorem at concrete inputs. -/
theorem c8_missing_fields_fail_fast_witness :
    (∃ msg, validateConfig rawBad = Except.error msg) ∧
    ∀ (s : String) (parse : String → Except String RawRootConfig), s ≠ "" →
      parse s = Except.ok rawBad →
      ∃ msg, (loadAndValidateConfig (some s) parse (ConfigCache.mk none none)).1 =
        Except.error msg :=
  c8_missing_fields_fail_fast rawBad (by decide)

/-! ## Properties of the base64url encoding -/

/-- The alphabet lookup inverts the index for every 6-bit value. -/
theorem c2n_b64Char_ball : ∀ n, n < 64 → c2n (b64Char n) = n := by decide

/-- Alphabet characters decode back to their index. -/
theorem c2n_b64Char (n : Nat) (h : n < 64) : c2n (b64Char n) = n :=
  c2n_b64Char_ball n h

/-- Decoding inverts encoding on byte lists. -/
theorem base64url_roundtrip : ∀ (bs : List Nat), ValidBytes bs →
    base64urlDecode (base64urlEncode bs) = bs
  | [], _ => rfl
  | [b1], h => by
      have h1 : b1 < 256 := h b1 (by simp)
      show base64urlDecode [b64Char (b1 / 4), b64Char (b1 % 4 * 16)] = [b1]
      unfold base64urlDecode
      rw [c2n_b64Char (b1 / 4) (by omega), c2n_b64Char (b1 % 4 * 16) (by omega)]
      simp only [List.cons.injEq, and_true]
      omega
  | [b1, b2], h => by
      have h1 : b1 < 256 := h b1 (by simp)
      have h2 : b2 < 256 := h b2 (by simp)
      show base64urlDecode [b64Char (b1 / 4), b64Char (b1 % 4 * 16 + b2 / 16),
        b64Char (b2 % 16 * 4)] = [b1, b2]
      unfold base64urlDecode
      rw [c2n_b64Char (b1 / 4) (by omega), c2n_b64Char (b1 % 4 * 16 + b2 / 16) (by omega),
        c2n_b64Char (b2 % 16 * 4) (by omega)]
      simp only [List.cons.injEq, and_true]
      constructor <;> omega
  | b1 :: b2 :: b3 :: rest, h => by
      have h1 : b1 < 256 := h b1 (by simp)
      have h2 : b2 < 256 := h b2 (by simp)
      have h3 : b3 < 256 := h b3 (by simp)
      have hrest : ValidBytes rest := fun b hb => h b (by simp [hb])
      show base64urlDecode (b64Char (b1 / 4) :: b64Char (b1 % 4 * 16 + b2 / 16) ::
        b64Char (b2 % 16 * 4 + b3 / 64) :: b64Char (b3 % 64) :: base64urlEncode rest) =
        b1 :: b2 :: b3 :: rest
      unfold base64urlDecode
      rw [c2n_b64Char (b1 / 4) (by omega), c2n_b64Char (b1 % 4 * 16 + b2 / 16) (by omega),
        c2n_b64Char (b2 % 16 * 4 + b3 / 64) (by omega), c2n_b64Char (b3 % 64) (by omega)]
      rw [base64url_roundtrip rest hrest]
      simp only [List.cons.injEq, and_true]
      refine ⟨by omega, by omega, by omega⟩

/-- The encoding is injective on byte lists. -/
theorem base64urlEncode_inj {bs bs2 : List Nat} (h : ValidBytes bs) (h2 : ValidBytes bs2)
    (he : base64urlEncode bs = base64urlEncode bs2) : bs = bs2 := by
  rw [← base64url_roundtrip bs h, ← base64url_roundtrip bs2 h2, he]

/-- Every 6-bit character lies in the alphabet. -/
theorem b64Char_mem (n : Nat) : b64Char n ∈ b64Alphabet := by
  have haux : ∀ m, m < 64 → b64Alphabet.getD m 'A' ∈ b64Alphabet := by decide
  exact haux (n % 64) (Nat.mod_lt n (by omega))

/-- Every character of an encoded byte list lies in the alphabet. -/
theorem base64urlEncode_chars : ∀ (bs : List Nat) (c : Char),
    c ∈ base64urlEncode bs → c ∈ b64Alphabet
  | [], c, hc => absurd hc (by simp [base64urlEncode])
  | [b1], c, hc => by
      simp only [base64urlEncode, List.mem_cons, List.not_mem_nil, or_false] at hc
      rcases hc with hc | hc <;> (rw [hc]; exact b64Char_mem _)
  | [b1, b2], c, hc => by
      simp only [base64urlEncode, List.mem_cons, List.not_mem_nil, or_false] at hc
      rcases hc with hc | hc | hc <;> (rw [hc]; exact b64Char_mem _)
  | b1 :: b2 :: b3 :: rest, c, hc => by
      simp only [base64urlEncode, List.mem_cons] at hc
      rcases hc with hc | hc | hc | hc | hc
      · rw [hc]; exact b64Char_mem _
      · rw [hc]; exact b64Char_mem _
      · rw [hc]; exact b64Char_mem _
      · rw [hc]; exact b64Char_mem _
      · exact base64urlEncode_chars rest c hc

/-- The dot is not an alphabet character. -/
theorem dot_not_in_b64 : '.' ∉ b64Alphabet := by decide

/-- Encoded segments never contain a dot. -/
theorem base64urlEncode_dotfree (bs : List Nat) : '.' ∉ base64urlEncode bs :=
  fun hmem => dot_not_in_b64 (base64urlEncode_chars bs '.' hmem)

/-- Encoding a nonempty byte list yields a nonempty segment. -/
theorem base64urlEncode_ne_nil (bs : List Nat) (h : bs ≠ []) :
    base64urlEncode bs ≠ [] := by
  cases bs with
  | nil => exact absurd rfl h
  | cons b1 rest =>
    cases rest with
    | nil => simp [base64urlEncode]
    | cons b2 rest2 =>
      cases rest2 with
      | nil => simp [base64urlEncode]
      | cons b3 rest3 => simp [base64urlEncode]

/-- Cancellation at the first dot: dot-free prefixes and the suffixes of
two equal dot-joined lists agree. -/
theorem dotfree_append_inj : ∀ (a a2 b b2 : List Char), '.' ∉ a → '.' ∉ a2 →
    a ++ '.' :: b = a2 ++ '.' :: b2 → a = a2 ∧ b = b2
  | [], [], b, b2, _, _, he => ⟨rfl, by simpa using he⟩
  | [], x :: xs, b, b2, _, ha2, he => by
      exfalso
      apply ha2
      simp only [List.nil_append, List.cons_append, List.cons.injEq] at he
      rw [← he.1]
      simp
  | x :: xs, [], b, b2, ha, _, he => by
      exfalso
      apply ha
      simp only [List.nil_append, List.cons_append, List.cons.injEq] at he
      rw [he.1]
      simp
  | x :: xs, y :: ys, b, b2, ha, ha2, he => by
      simp only [List.cons_append, List.cons.injEq] at he
      have hrec := dotfree_append_inj xs ys b b2
        (fun hm => ha (List.mem_cons_of_mem _ hm))
        (fun hm => ha2 (List.mem_cons_of_mem _ hm)) he.2
      exact ⟨by rw [he.1, hrec.1], hrec.2⟩

/-- Splitting a dot-free list yields that single segment. -/
theorem dotSplit_dotfree : ∀ (a : List Char), '.' ∉ a → dotSplit a = [a]
  | [], _ => rfl
  | c :: cs, h => by
      have hc : ¬(c = '.') := fun hh => h (by simp [hh])
      have hrec := dotSplit_dotfree cs (fun hm => h (List.mem_cons_of_mem _ hm))
      simp [dotSplit, hc, hrec]

/-- Splitting after a dot-free prefix peels that prefix off. -/
theorem dotSplit_append (a b : List Char) (ha : '.' ∉ a) :
    dotSplit (a ++ '.' :: b) = a :: dotSplit b := by
  induction a with
  | nil => simp [dotSplit]
  | cons c cs ih =>
      have hc : ¬(c = '.') := fun hh => ha (by simp [hh])
      have ih2 := ih (fun hm => ha (List.mem_cons_of_mem _ hm))
      simp [dotSplit, hc, ih2]

/-- The five segments of a compact JWE are recovered by splitting at the
dots. -/
theorem jweSegments_dotSplit (h ek iv ct tag : List Nat) :
    dotSplit (jweSegments h ek iv ct tag) =
      [base64urlEncode h, base64urlEncode ek, base64urlEncode iv,
       base64urlEncode ct, base64urlEncode tag] := by
  unfold jweSegments
  rw [dotSplit_append _ _ (base64urlEncode_dotfree h),
      dotSplit_append _ _ (base64urlEncode_dotfree ek),
      dotSplit_append _ _ (base64urlEncode_dotfree iv),
      dotSplit_append _ _ (base64urlEncode_dotfree ct),
      dotSplit_dotfree _ (base64urlEncode_dotfree tag)]

/-- UTF-8 encoding of a character is never empty. -/
theorem utf8Bytes_ne_nil (c : Char) : utf8Bytes c ≠ [] := by
  unfold utf8Bytes
  dsimp only
  split
  · simp
  · split
    · simp
    · split <;> simp

/-- UTF-8 encoding of a string with nonempty data is nonempty. -/
theorem utf8Enc_ne_nil (s : String) (h : s.data ≠ []) : utf8Enc s ≠ [] := by
  unfold utf8Enc
  cases hd : s.data with
  | nil => exact absurd hd h
  | cons c cs =>
      simp only [List.foldr]
      intro hx
      rcases List.append_eq_nil.mp hx with ⟨h1, _⟩
      exact utf8Bytes_ne_nil c h1

/-- Appending onto a string with nonempty data keeps the data nonempty. -/
theorem strAppend_ne_left {x y : String} (h : x.data ≠ []) : (x ++ y).data ≠ [] := by
  rw [strDataAppend]
  intro hh
  exact h (List.append_eq_nil.mp hh).1

/-- The protected-header JSON always has nonempty data. -/
theorem jweHeaderJson_data_ne_nil (a b c : String) : (jweHeaderJson a b c).data ≠ [] := by
  unfold jweHeaderJson
  exact strAppend_ne_left (strAppend_ne_left (strAppend_ne_left (strAppend_ne_left
    (strAppend_ne_left (strAppend_ne_left (by decide))))))

/-! ## Claim C7 (confirmed) -/

/-- Claim C7: for every valid input (nonempty secret, importable nonempty
public key, and crypto outputs of positive length as RSA-OAEP/AES-GCM
guarantee), the pipeline returns a JWE compact serialization of exactly 5
nonempty base64url segments separated by dots. -/
theorem c7_jwe_five_segments {S C : Type} (ops : JoseOps S C) (rand : CallRandomness)
    (payload : CombinedPayload S C) (config : EnvironmentConfig) (signNow : Nat)
    (hsec : config.clientSecret ≠ "") (hpk : config.keys.enc.publicKey ≠ "")
    (himp : ops.importSPKI config.keys.enc.publicKey
        (jsOrOpt config.keyEncryptionAlgorithm "RSA-OAEP-256") = Except.ok ())
    (hek : ops.encryptKey config.keys.enc.publicKey rand.cek ≠ [])
    (hiv : rand.iv ≠ [])
    (hct : ops.encryptContent rand.cek rand.iv (utf8Enc (ops.signJws
        (signJwtClaims payload config signNow rand.jti)
        (jsStrOr config.signAlgorithm "HS256") config.clientSecret)) ≠ [])
    (htag : ops.authTag rand.cek rand.iv (utf8Enc (ops.signJws
        (signJwtClaims payload config signNow rand.jti)
        (jsStrOr config.signAlgorithm "HS256") config.clientSecret)) ≠ []) :
    ∃ tok evs,
      generateSignedAndEncryptedToken ops rand payload config signNow =
        (Except.ok tok, evs) ∧
      (dotSplit tok.data).length = 5 ∧
      ∀ seg ∈ dotSplit tok.data, seg ≠ [] ∧ ∀ c ∈ seg, c ∈ b64Alphabet := by
  refine ⟨_, _, genSigned_ok ops rand payload config signNow hsec hpk himp, ?_, ?_⟩
  all_goals
    rw [show (jweCompact
        (utf8Enc (jweHeaderJson (jsOrOpt config.keyEncryptionAlgorithm "RSA-OAEP-256")
          (jsOrOpt config.contentEncryptionAlgorithm "A256GCM") config.clientId))
        (ops.encryptKey config.keys.enc.publicKey rand.cek)
        rand.iv
        (ops.encryptContent rand.cek rand.iv (utf8Enc (ops.signJws
          (signJwtClaims payload config signNow rand.jti)
          (jsStrOr config.signAlgorithm "HS256") config.clientSecret)))
        (ops.authTag rand.cek rand.iv (utf8Enc (ops.signJws
          (signJwtClaims payload config signNow rand.jti)
          (jsStrOr config.signAlgorithm "HS256") config.clientSecret)))).data =
      jweSegments
        (utf8Enc (jweHeaderJson (jsOrOpt config.keyEncryptionAlgorithm "RSA-OAEP-256")
          (jsOrOpt config.contentEncryptionAlgorithm "A256GCM") config.clientId))
        (ops.encryptKey config.keys.enc.publicKey rand.cek)
        rand.iv
        (ops.encryptContent rand.cek rand.iv (utf8Enc (ops.signJws
          (signJwtClaims payload config signNow rand.jti)
          (jsStrOr config.signAlgorithm "HS256") config.clientSecret)))
        (ops.authTag rand.cek rand.iv (utf8Enc (ops.signJws
          (signJwtClaims payload config signNow rand.jti)
          (jsStrOr config.signAlgorithm "HS256") config.clientSecret))) from rfl]
    rw [jweSegments_dotSplit]
  · rfl
  · intro seg hseg
    have hhead : utf8Enc (jweHeaderJson (jsOrOpt config.keyEncryptionAlgorithm "RSA-OAEP-256")
        (jsOrOpt config.contentEncryptionAlgorithm "A256GCM") config.clientId) ≠ [] :=
      utf8Enc_ne_nil _ (jweHeaderJson_data_ne_nil _ _ _)
    simp only [List.mem_cons, List.not_mem_nil, or_false] at hseg
    rcases hseg with hseg | hseg | hseg | hseg | hseg <;>
      (rw [hseg];
       exact ⟨base64urlEncode_ne_nil _ (by first
          | exact hhead | exact hek | exact hiv | exact hct | exact htag),
        fun c hc => base64urlEncode_chars _ c hc⟩)

/-- Witness for the C7 theorem at concrete inputs. -/
theorem c7_jwe_five_segments_witness :
    ∃ tok evs,
      generateSignedAndEncryptedToken opsX randX payloadX cfgBase 1000 =
        (Except.ok tok, evs) ∧
      (dotSplit tok.data).length = 5 ∧
      ∀ seg ∈ dotSplit tok.data, seg ≠ [] ∧ ∀ c ∈ seg, c ∈ b64Alphabet :=
  c7_jwe_five_segments opsX randX payloadX cfgBase 1000
    (by decide) (by decide) rfl (by decide) (by decide) (by decide) (by decide)

/-! ## Claim C6 (confirmed) -/

/-- Claim C6: two pipeline calls with identical payload and configuration
but fresh randomness — distinct jti values and distinct initialization
vectors — both succeed and produce different encrypted tokens; the jti
embedded in each call's signed claims is exactly that call's fresh random
UUID. -/
theorem c6_fresh_randomness_distinct_tokens {S C : Type} (ops : JoseOps S C)
    (rand1 rand2 : CallRandomness) (payload : CombinedPayload S C)
    (config : EnvironmentConfig) (signNow : Nat)
    (hsec : config.clientSecret ≠ "") (hpk : config.keys.enc.publicKey ≠ "")
    (himp : ops.importSPKI config.keys.enc.publicKey
        (jsOrOpt config.keyEncryptionAlgorithm "RSA-OAEP-256") = Except.ok ())
    (hjti : rand1.jti ≠ rand2.jti) (hiv : rand1.iv ≠ rand2.iv)
    (hv1 : ValidBytes rand1.iv) (hv2 : ValidBytes rand2.iv) :
    ∃ t1 t2 e1 e2,
      generateSignedAndEncryptedToken ops rand1 payload config signNow =
        (Except.ok t1, e1) ∧
      generateSignedAndEncryptedToken ops rand2 payload config signNow =
        (Except.ok t2, e2) ∧
      t1 ≠ t2 ∧
      (signJwtClaims payload config signNow rand1.jti).jti = rand1.jti ∧
      (signJwtClaims payload config signNow rand2.jti).jti = rand2.jti := by
  refine ⟨_, _, _, _, genSigned_ok ops rand1 payload config signNow hsec hpk himp,
    genSigned_ok ops rand2 payload config signNow hsec hpk himp, ?_, rfl, rfl⟩
  intro heq
  have hdat : jweSegments
      (utf8Enc (jweHeaderJson (jsOrOpt config.keyEncryptionAlgorithm "RSA-OAEP-256")
        (jsOrOpt config.contentEncryptionAlgorithm "A256GCM") config.clientId))
      (ops.encryptKey config.keys.enc.publicKey rand1.cek)
      rand1.iv
      (ops.encryptContent rand1.cek rand1.iv (utf8Enc (ops.signJws
        (signJwtClaims payload config signNow rand1.jti)
        (jsStrOr config.signAlgorithm "HS256") config.clientSecret)))
      (ops.authTag rand1.cek rand1.iv (utf8Enc (ops.signJws
        (signJwtClaims payload config signNow rand1.jti)
        (jsStrOr config.signAlgorithm "HS256") config.clientSecret))) =
      jweSegments
      (utf8Enc (jweHeaderJson (jsOrOpt config.keyEncryptionAlgorithm "RSA-OAEP-256")
        (jsOrOpt config.contentEncryptionAlgorithm "A256GCM") config.clientId))
      (ops.encryptKey config.keys.enc.publicKey rand2.cek)
      rand2.iv
      (ops.encryptContent rand2.cek rand2.iv (utf8Enc (ops.signJws
        (signJwtClaims payload config signNow rand2.jti)
        (jsStrOr config.signAlgorithm "HS256") config.clientSecret)))
      (ops.authTag rand2.cek rand2.iv (utf8Enc (ops.signJws
        (signJwtClaims payload config signNow rand2.jti)
        (jsStrOr config.signAlgorithm "HS256") config.clientSecret))) :=
    congrArg String.data heq
  unfold jweSegments at hdat
  have p1 := dotfree_append_inj _ _ _ _
    (base64urlEncode_dotfree _) (base64urlEncode_dotfree _) hdat
  have p2 := dotfree_append_inj _ _ _ _
    (base64urlEncode_dotfree _) (base64urlEncode_dotfree _) p1.2
  have p3 := dotfree_append_inj _ _ _ _
    (base64urlEncode_dotfree _) (base64urlEncode_dotfree _) p2.2
  exact hiv (base64urlEncode_inj hv1 hv2 p3.1)

/-- A second concrete per-call randomness value, distinct from randX. -/
def randY : CallRandomness := CallRandomness.mk "jti-2" [1, 2] [5, 6]

/-- Witness for the C6 theorem at concrete inputs. -/
theorem c6_fresh_randomness_distinct_tokens_witness :
    ∃ t1 t2 e1 e2,
      generateSignedAndEncryptedToken opsX randX payloadX cfgBase 1000 =
        (Except.ok t1, e1) ∧
      generateSignedAndEncryptedToken opsX randY payloadX cfgBase 1000 =
        (Except.ok t2, e2) ∧
      t1 ≠ t2 ∧
      (signJwtClaims payloadX cfgBase 1000 randX.jti).jti = randX.jti ∧
      (signJwtClaims payloadX cfgBase 1000 randY.jti).jti = randY.jti :=
  c6_fresh_randomness_distinct_tokens opsX randX randY payloadX cfgBase 1000
    (by decide) (by decide) rfl (by decide) (by decide) (by decide) (by decide)

end Spec2Proof
